import Mathlib

/-!
Verification development for the tidyanki archive codec and
deduplication pipeline.  Python text values are modelled as Lean
`String`s (lists of Unicode code points), integers as `Int`/`Nat`,
Python sets of strings as `Finset String`, and SQLite tables as lists
of row records.  Float percentages are modelled as exact rationals;
every concrete percentage appearing in a theorem below is exactly
representable in binary floating point, so the models agree with the
Python values there.
-/

namespace Tidyanki

/-- Code points that Python's `str.strip()` / `str.split()` treat as
whitespace (`str.isspace`): ASCII whitespace, the C1 separators
0x1C-0x1F, NEL, NBSP and the Unicode space/separator block. -/
def isPySpaceChar (c : Char) : Bool :=
  c.toNat = 9 ∨ c.toNat = 10 ∨ c.toNat = 11 ∨ c.toNat = 12 ∨ c.toNat = 13 ∨
  (28 ≤ c.toNat ∧ c.toNat ≤ 32) ∨ c.toNat = 0x85 ∨ c.toNat = 0xA0 ∨
  c.toNat = 0x1680 ∨ (0x2000 ≤ c.toNat ∧ c.toNat ≤ 0x200A) ∨
  c.toNat = 0x2028 ∨ c.toNat = 0x2029 ∨ c.toNat = 0x202F ∨
  c.toNat = 0x205F ∨ c.toNat = 0x3000

/-- Python `str.strip()` on code-point lists: drop leading and trailing
whitespace. -/
def stripList (l : List Char) : List Char :=
  (l.dropWhile isPySpaceChar).rdropWhile isPySpaceChar

/-- Python `str.strip()`. -/
def pyStrip (s : String) : String :=
  ⟨stripList s.toList⟩

/-- Python `str.lower()` restricted to the ASCII letters; all strings
manipulated by the claims stay in the range where this agrees with
Python's Unicode lowercasing. -/
def pyLowerChar (c : Char) : Char :=
  if 65 ≤ c.toNat ∧ c.toNat ≤ 90 then Char.ofNat (c.toNat + 32) else c

/-- Python `str.lower()`. -/
def pyLower (s : String) : String :=
  ⟨s.toList.map pyLowerChar⟩

/-- Single pass implementing `re.sub(r"<[^>]+>", "", text)`.  The
first argument holds the reversed characters seen since an unmatched
`<` (`none` when outside a candidate tag).  A leftmost match of the
regex removes a `<`, at least one non-`>` character, and the first
`>` after them; a `<` with no such closing `>` (or immediately
followed by `>`) is kept verbatim, exactly as the regex leaves it. -/
def stripHtmlAux : Option (List Char) → List Char → List Char
  | none, [] => []
  | some buf, [] => '<' :: buf.reverse
  | none, c :: rest =>
    if c = '<' then stripHtmlAux (some []) rest
    else c :: stripHtmlAux none rest
  | some buf, c :: rest =>
    if c = '>' then
      if buf.isEmpty then '<' :: '>' :: stripHtmlAux none rest
      else stripHtmlAux none rest
    else stripHtmlAux (some (c :: buf)) rest

/-- Python `re.sub(r"<[^>]+>", "", text)`. -/
def stripHtml (s : String) : String :=
  ⟨stripHtmlAux none s.toList⟩

/-- Is the character one of the `re.split(r"[,;|]", ...)` delimiters? -/
def isDelim (c : Char) : Bool :=
  c = ',' ∨ c = ';' ∨ c = '|'

/-- Python `re.split(r"[,;|]", text)`: split at every delimiter occurrence,
keeping empty pieces. -/
def splitDelimsList : List Char → List (List Char)
  | [] => [[]]
  | c :: rest =>
    if isDelim c then
      [] :: splitDelimsList rest
    else
      match splitDelimsList rest with
      | [] => [[c]]
      | w :: ws => (c :: w) :: ws

/-- Python `re.split(r"[,;|]", text)` on strings. -/
def splitDelims (s : String) : List String :=
  (splitDelimsList s.toList).map (fun l => ⟨l⟩)

/-- The module-level stop list `IGNORED_WORDS = {"item", "sentence",
"plain"}` from `deduplication.py`. -/
def IGNORED_WORDS : List String := ["item", "sentence", "plain"]

/-- Function `normalize_and_split` from `deduplication.py`: strip HTML tags,
lowercase and trim, split on `,` `;` `|`, trim each token, drop empty
tokens, drop stop-list tokens, and keep only tokens of length at most
`max_word_length`, as a set. -/
def normalize_and_split (text : String) (max_word_length : Nat := 20) :
    Finset String :=
  let text1 := stripHtml text
  let words := splitDelims (pyStrip (pyLower text1))
  let words1 := (words.map pyStrip).filter (fun w => w ≠ "")
  let words2 := words1.filter (fun w => ¬ w ∈ IGNORED_WORDS)
  ((words2.filter (fun w => w.length ≤ max_word_length)).toFinset)

/-- Record `AnkiNote` from `models/anki_models.py` (the optional `model` and
`media_files` attachments play no role in deduplication and are
omitted). -/
structure AnkiNote where
  id : Int
  guid : String
  mid : Int
  fields : List String
  tags : List String
deriving DecidableEq, Repr

/-- Function `build_collection_word_set` from `deduplication.py`: union of
`normalize_and_split` over every field of every collection note. -/
def build_collection_word_set (collection : List AnkiNote) : Finset String :=
  collection.foldl
    (fun acc note =>
      note.fields.foldl (fun acc2 field => acc2 ∪ normalize_and_split field) acc)
    ∅

/-- Function `notes_match_auto` from `deduplication.py`: the note is a duplicate
when some field's normalized token set meets the collection word set. -/
def notes_match_auto (external_note : AnkiNote)
    (collection_word_set : Finset String) : Bool :=
  external_note.fields.any
    (fun field => (normalize_and_split field ∩ collection_word_set).Nonempty)

/-- Function `deduplicate_external_deck` from `deduplication.py`, over the notes
already loaded from the `.apkg` file and the (pre-loaded) existing
collection: keep the external notes with no word overlap. -/
def deduplicate_external_deck (external_notes : List AnkiNote)
    (existing_collection : List AnkiNote) : List AnkiNote :=
  let collection_word_set := build_collection_word_set existing_collection
  external_notes.filter (fun note => ¬ notes_match_auto note collection_word_set)

/-- A row of the `cards` table as used by the live-collection reads in
`tables.py` (`c.id`, `c.did`, `c.nid`, `c.ord`). -/
structure CardRow where
  id : Int
  did : Int
  nid : Int
  ord : Int
deriving DecidableEq, Repr

/-- A row of the `decks` table (`d.id`, `d.name`); `name` is stored with
the internal 0x1F hierarchy separator. -/
structure DeckRow where
  id : Int
  name : String
deriving DecidableEq, Repr

/-- The live Anki database as read by `tables.py`: `notes`, `cards` and
`decks` tables. -/
structure AnkiDb where
  notes : List AnkiNote
  cards : List CardRow
  decks : List DeckRow
deriving Repr

/-- Left-to-right non-overlapping replacement of `::` by the 0x1F
separator on the character list. -/
def replaceSepList : List Char → List Char
  | c1 :: c2 :: rest =>
    if c1 = ':' ∧ c2 = ':' then '\x1f' :: replaceSepList rest
    else c1 :: replaceSepList (c2 :: rest)
  | l => l

/-- The `deck_name.replace("::", "\x1f")` translation applied by
`load_notes` before comparing against stored deck names. -/
def deckSearchName (deck_name : String) : String :=
  ⟨replaceSepList deck_name.toList⟩

/-- The SQL join of `load_notes`: the note has a card in a deck whose
stored name equals the (already translated) search name. -/
def noteInDeck (db : AnkiDb) (search_name : String) (nid : Int) : Bool :=
  db.cards.any (fun c =>
    c.nid = nid ∧ db.decks.any (fun d => d.id = c.did ∧ d.name = search_name))

/-- Function `load_notes` from `tables.py`: all notes, or the notes
having a card in the named deck (deck name given externally with
`::`).  The source guards the filter with `if deck_name:`, so a `None`
or empty deck name loads the whole collection. -/
def load_notes (db : AnkiDb) (deck_name : Option String) : List AnkiNote :=
  match deck_name with
  | none => db.notes
  | some dn =>
    if dn = "" then db.notes
    else db.notes.filter (fun n => noteInDeck db (deckSearchName dn) n.id)

/-- The default comparison of `remove_duplicate_notes`:
`new_field.strip().lower() == existing_field.strip().lower()`. -/
def default_comparison (new_field existing_field : String) : Bool :=
  pyLower (pyStrip new_field) = pyLower (pyStrip existing_field)

/-- The reference list actually consulted by `remove_duplicate_notes`:
the existing collection (the whole collection when none is supplied)
with every note whose id occurs among the new deck's note ids removed. -/
def usedReferenceNotes (db : AnkiDb) (new_deck_name : String)
    (existing_collection : Option (List AnkiNote)) : List AnkiNote :=
  let new_notes := load_notes db (some new_deck_name)
  let existing := existing_collection.getD (load_notes db none)
  existing.filter (fun note => ¬ (new_notes.map (fun n => n.id)).contains note.id)

/-- The duplicate test applied per candidate/reference pair inside
`remove_duplicate_notes`: both field lists must be long enough, and the
comparison function must accept the two fields at the index. -/
def duplicatePairTest (comparison_field_index : Nat)
    (comparison_func : String → String → Bool)
    (new_note existing_note : AnkiNote) : Bool :=
  comparison_field_index < new_note.fields.length ∧
  comparison_field_index < existing_note.fields.length ∧
  comparison_func (new_note.fields.getD comparison_field_index "")
    (existing_note.fields.getD comparison_field_index "")

/-- Function `remove_duplicate_notes` from `deduplication.py`: filter the new
deck's notes to those matching no reference note. -/
def remove_duplicate_notes (db : AnkiDb) (new_deck_name : String)
    (existing_collection : Option (List AnkiNote) := none)
    (comparison_field_index : Nat := 0)
    (custom_comparison : Option (String → String → Bool) := none) :
    List AnkiNote :=
  let new_notes := load_notes db (some new_deck_name)
  let existing_notes := usedReferenceNotes db new_deck_name existing_collection
  let comparison_func := custom_comparison.getD default_comparison
  new_notes.filter (fun new_note =>
    ! existing_notes.any
      (duplicatePairTest comparison_field_index comparison_func new_note))

/-- The per-pair equality test of `analyze_deck_overlap`: fields at the
index match case-insensitively after trimming (guarded by length). -/
def overlapPairTest (comparison_field_index : Nat)
    (note1 note2 : AnkiNote) : Bool :=
  comparison_field_index < note1.fields.length ∧
  comparison_field_index < note2.fields.length ∧
  pyLower (pyStrip (note1.fields.getD comparison_field_index "")) =
    pyLower (pyStrip (note2.fields.getD comparison_field_index ""))

/-- List `deck1_in_deck2` of `analyze_deck_overlap`: deck-1 notes that match
some deck-2 note at the comparison index. -/
def deck1_in_deck2 (db : AnkiDb) (deck1_name deck2_name : String)
    (comparison_field_index : Nat) : List AnkiNote :=
  let deck1_notes := load_notes db (some deck1_name)
  let deck2_notes := load_notes db (some deck2_name)
  deck1_notes.filter (fun note1 =>
    deck2_notes.any (fun note2 =>
      overlapPairTest comparison_field_index note1 note2))

/-- The symmetric deck-2-side computation built (and then discarded) by
`analyze_deck_overlap`: deck-2 notes matching some deck-1 note. -/
def deck2_in_deck1 (db : AnkiDb) (deck1_name deck2_name : String)
    (comparison_field_index : Nat) : List AnkiNote :=
  let deck1_notes := load_notes db (some deck1_name)
  let deck2_notes := load_notes db (some deck2_name)
  deck2_notes.filter (fun note2 =>
    deck1_notes.any (fun note1 =>
      overlapPairTest comparison_field_index note1 note2))

/-- The dictionary returned by `analyze_deck_overlap`.  The two unique
counts are Python ints (they can go negative), the percentages are
Python floats modelled as exact rationals. -/
structure OverlapStats where
  deck1_name : String
  deck2_name : String
  deck1_total_notes : Nat
  deck2_total_notes : Nat
  overlap_notes : Nat
  deck1_unique_notes : Int
  deck2_unique_notes : Int
  overlap_percentage_deck1 : ℚ
  overlap_percentage_deck2 : ℚ
deriving DecidableEq, Repr

/-- Function `analyze_deck_overlap` from `deduplication.py`.  Both unique counts
subtract the deck-1-side overlap count; the deck-2-side list is
computed by the source but never used. -/
def analyze_deck_overlap (db : AnkiDb) (deck1_name deck2_name : String)
    (comparison_field_index : Nat := 0) : OverlapStats :=
  let deck1_total := (load_notes db (some deck1_name)).length
  let deck2_total := (load_notes db (some deck2_name)).length
  let overlap_count :=
    (deck1_in_deck2 db deck1_name deck2_name comparison_field_index).length
  { deck1_name := deck1_name
    deck2_name := deck2_name
    deck1_total_notes := deck1_total
    deck2_total_notes := deck2_total
    overlap_notes := overlap_count
    deck1_unique_notes := (deck1_total : Int) - overlap_count
    deck2_unique_notes := (deck2_total : Int) - overlap_count
    overlap_percentage_deck1 :=
      if 0 < deck1_total then (overlap_count : ℚ) / deck1_total * 100 else 0
    overlap_percentage_deck2 :=
      if 0 < deck2_total then (overlap_count : ℚ) / deck2_total * 100 else 0 }

/-- The deck-id assignment of `export_cards_to_deck` and
`create_vocab_cards`: `abs(hash(deck_name)) % (10**10)`.  Python's
builtin `hash` on strings is salted per interpreter process, so it is
passed here as an explicit oracle `h`. -/
def deck_id_of_name (h : String → Int) (deck_name : String) : Nat :=
  (h deck_name).natAbs % (10 ^ 10)

/-- Whitespace on raw code points, as `isPySpaceChar`. -/
def isPySpaceCp (c : Nat) : Bool :=
  c = 9 ∨ c = 10 ∨ c = 11 ∨ c = 12 ∨ c = 13 ∨ (28 ≤ c ∧ c ≤ 32) ∨
  c = 0x85 ∨ c = 0xA0 ∨ c = 0x1680 ∨ (0x2000 ≤ c ∧ c ≤ 0x200A) ∨
  c = 0x2028 ∨ c = 0x2029 ∨ c = 0x202F ∨ c = 0x205F ∨ c = 0x3000

/-- Python `str.strip()` on a code-point list. -/
def stripCp (l : List Nat) : List Nat :=
  ((l.dropWhile isPySpaceCp).reverse.dropWhile isPySpaceCp).reverse

/-- UTF-8 continuation byte. -/
def isCont (b : Nat) : Bool := 0x80 ≤ b ∧ b ≤ 0xBF

/-- Admissible second byte of a three-byte sequence with lead `b`. -/
def cont3ok (b b2 : Nat) : Bool :=
  if b = 0xE0 then 0xA0 ≤ b2 ∧ b2 ≤ 0xBF
  else if b = 0xED then 0x80 ≤ b2 ∧ b2 ≤ 0x9F
  else isCont b2

/-- Admissible second byte of a four-byte sequence with lead `b`. -/
def cont4ok (b b2 : Nat) : Bool :=
  if b = 0xF0 then 0x90 ≤ b2 ∧ b2 ≤ 0xBF
  else if b = 0xF4 then 0x80 ≤ b2 ∧ b2 ≤ 0x8F
  else isCont b2

/-- Python `bytes.decode("utf-8", errors="ignore")`: decode well-formed UTF-8
sequences to code points and silently skip each maximal invalid
subpart, as CPython does.  The fuel counts decoding steps; every step
consumes at least one byte, so fuel equal to the byte count always
suffices. -/
def utf8DecodeIgnoreFuel : Nat → List Nat → List Nat
  | 0, _ => []
  | _ + 1, [] => []
  | fuel + 1, b :: rest =>
    if b ≤ 0x7F then b :: utf8DecodeIgnoreFuel fuel rest
    else if 0xC2 ≤ b ∧ b ≤ 0xDF then
      match rest with
      | [] => []
      | b2 :: rest2 =>
        if isCont b2 then
          ((b - 0xC0) * 0x40 + (b2 - 0x80)) :: utf8DecodeIgnoreFuel fuel rest2
        else utf8DecodeIgnoreFuel fuel (b2 :: rest2)
    else if 0xE0 ≤ b ∧ b ≤ 0xEF then
      match rest with
      | [] => []
      | b2 :: rest2 =>
        if cont3ok b b2 then
          match rest2 with
          | [] => []
          | b3 :: rest3 =>
            if isCont b3 then
              ((b - 0xE0) * 0x1000 + (b2 - 0x80) * 0x40 + (b3 - 0x80)) ::
                utf8DecodeIgnoreFuel fuel rest3
            else utf8DecodeIgnoreFuel fuel (b3 :: rest3)
        else utf8DecodeIgnoreFuel fuel (b2 :: rest2)
    else if 0xF0 ≤ b ∧ b ≤ 0xF4 then
      match rest with
      | [] => []
      | b2 :: rest2 =>
        if cont4ok b b2 then
          match rest2 with
          | [] => []
          | b3 :: rest3 =>
            if isCont b3 then
              match rest3 with
              | [] => []
              | b4 :: rest4 =>
                if isCont b4 then
                  ((b - 0xF0) * 0x40000 + (b2 - 0x80) * 0x1000 +
                    (b3 - 0x80) * 0x40 + (b4 - 0x80)) ::
                    utf8DecodeIgnoreFuel fuel rest4
                else utf8DecodeIgnoreFuel fuel (b4 :: rest4)
            else utf8DecodeIgnoreFuel fuel (b3 :: rest3)
        else utf8DecodeIgnoreFuel fuel (b2 :: rest2)
    else utf8DecodeIgnoreFuel fuel rest

/-- Python `bytes.decode("utf-8", errors="ignore")`. -/
def utf8DecodeIgnore (l : List Nat) : List Nat :=
  utf8DecodeIgnoreFuel l.length l

/-- The while-loop of `_decode_template_config` in `operations.py`,
transcribed branch for branch: the loop index walks the characters of
the decoded string; each of the three tag characters reads the next
character as a length and slices that many characters out as one
stripped part; any other character is skipped.  The fuel counts loop
iterations; every iteration consumes at least one character, so fuel
equal to the character count is always sufficient. -/
def scanPartsFuel : Nat → List Nat → List (List Nat)
  | 0, _ => []
  | _ + 1, [] => []
  | fuel + 1, c :: rest =>
    if c = 0x0A then
      match rest with
      | [] => []
      | len :: rest2 =>
        if len ≤ rest2.length then
          stripCp (rest2.take len) :: scanPartsFuel fuel (rest2.drop len)
        else []
    else if c = 0x12 then
      match rest with
      | [] => []
      | len :: rest2 =>
        if len ≤ rest2.length then
          stripCp (rest2.take len) :: scanPartsFuel fuel (rest2.drop len)
        else []
    else if c = 0x1A then
      match rest with
      | [] => []
      | len :: rest2 =>
        if len ≤ rest2.length then
          stripCp (rest2.take len) :: scanPartsFuel fuel (rest2.drop len)
        else []
    else scanPartsFuel fuel rest

/-- The part-extraction loop of `_decode_template_config`. -/
def scanParts (s : List Nat) : List (List Nat) :=
  scanPartsFuel s.length s

/-- Function `_decode_template_config` from `operations.py`: decode the blob as
lossy UTF-8, run the tag scan over the decoded characters, and pad the
result to exactly three sections (front, back, browser-question).  The
model is a total function; the source's `except` branch is
unreachable. -/
def decode_template_config (config_blob : List Nat) :
    List Nat × List Nat × List Nat :=
  let parts := scanParts (utf8DecodeIgnore config_blob)
  (parts.getD 0 [], parts.getD 1 [], parts.getD 2 [])

/-- The scan as the spec describes the loop, with the three tags
treated uniformly by one rule. -/
def scanPartsSpecFuel : Nat → List Nat → List (List Nat)
  | 0, _ => []
  | _ + 1, [] => []
  | fuel + 1, c :: rest =>
    if c = 0x0A ∨ c = 0x12 ∨ c = 0x1A then
      match rest with
      | [] => []
      | len :: rest2 =>
        if len ≤ rest2.length then
          stripCp (rest2.take len) :: scanPartsSpecFuel fuel (rest2.drop len)
        else []
    else scanPartsSpecFuel fuel rest

/-- Modelled from the spec: the byte-level scan the specification
describes for the template-config decoder — scan the **raw bytes**, on
a tag byte read the next **byte** as the length, consume that many
**bytes**, and decode just those bytes as lossy UTF-8 into one trimmed
section. -/
def specScanBytesFuel : Nat → List Nat → List (List Nat)
  | 0, _ => []
  | _ + 1, [] => []
  | fuel + 1, c :: rest =>
    if c = 0x0A ∨ c = 0x12 ∨ c = 0x1A then
      match rest with
      | [] => []
      | len :: rest2 =>
        if len ≤ rest2.length then
          stripCp (utf8DecodeIgnore (rest2.take len)) ::
            specScanBytesFuel fuel (rest2.drop len)
        else []
    else specScanBytesFuel fuel rest

/-- Modelled from the spec: `_decode_template_config` as the
specification words it (byte-level scan, per-section UTF-8 decode). -/
def spec_decode_template_config (config_blob : List Nat) :
    List Nat × List Nat × List Nat :=
  let parts := specScanBytesFuel config_blob.length config_blob
  (parts.getD 0 [], parts.getD 1 [], parts.getD 2 [])

/-- Case-insensitive character equality for `re.IGNORECASE` (ASCII
case folding; all pattern letters are ASCII). -/
def ciEq (a b : Char) : Bool :=
  pyLowerChar a = pyLowerChar b

/-- Case-insensitive prefix test. -/
def startsWithCi : List Char → List Char → Bool
  | [], _ => true
  | _ :: _, [] => false
  | p :: ps, c :: cs => ciEq p c ∧ startsWithCi ps cs

/-- The character class of the two quote characters (double quote and
the single quote, code point 39). -/
def isQuote (c : Char) : Bool :=
  c = '"' ∨ c = Char.ofNat 39

/-- Attempt the tail `src=["\']([^"\']+)["\']` of the image regex at
offset `e` into `t` (so `[^>]+` has matched `t.take e`): literal
`src=`, an opening quote, a non-empty greedy run of non-quote
characters (the capture), and a closing quote.  Returns the capture
and the text after the whole match. -/
def trySrcAt (t : List Char) (e : Nat) : Option (List Char × List Char) :=
  let u := t.drop e
  if startsWithCi "src=".toList u then
    match u.drop 4 with
    | [] => none
    | q :: v =>
      if isQuote q then
        let cap := v.takeWhile (fun c => ¬ isQuote c)
        if 0 < cap.length then
          match v.drop cap.length with
          | [] => none
          | q2 :: w => if isQuote q2 then some (cap, w) else none
        else none
      else none
  else none

/-- Backtracking search for the greedy `[^>]+`: try the longest
admissible run first, giving characters back one at a time. -/
def tryAttr (t : List Char) : Nat → Option (List Char × List Char)
  | 0 => none
  | e + 1 =>
    match trySrcAt t (e + 1) with
    | some r => some r
    | none => tryAttr t e

/-- One attempted match of `<img[^>]+src=["\']([^"\']+)["\']` (with
`re.IGNORECASE`) anchored at the start of `s`. -/
def matchImgAt (s : List Char) : Option (List Char × List Char) :=
  if startsWithCi "<img".toList s then
    let t := s.drop 4
    tryAttr t (t.takeWhile (fun x => x ≠ '>')).length
  else none

/-- Python `re.findall` driver for the image pattern: slide over the text,
emitting each leftmost non-overlapping capture and resuming after the
match.  Every loop step consumes at least one character, so fuel equal
to the text length suffices. -/
def imgScanFuel : Nat → List Char → List (List Char)
  | 0, _ => []
  | _ + 1, [] => []
  | fuel + 1, c :: cs =>
    match matchImgAt (c :: cs) with
    | some (cap, rest) => cap :: imgScanFuel fuel rest
    | none => imgScanFuel fuel cs

/-- Python `re.findall(r'<img[^>]+src=["\']([^"\']+)["\']', field, re.IGNORECASE)`. -/
def imgScan (s : List Char) : List (List Char) :=
  imgScanFuel s.length s

/-- One attempted match of `\[sound:([^\]]+)\]` (with `re.IGNORECASE`)
anchored at the start of `s`. -/
def matchSoundAt (s : List Char) : Option (List Char × List Char) :=
  if startsWithCi "[sound:".toList s then
    let v := s.drop 7
    let cap := v.takeWhile (fun c => c ≠ ']')
    if 0 < cap.length then
      match v.drop cap.length with
      | [] => none
      | c :: w => if c = ']' then some (cap, w) else none
    else none
  else none

/-- Python `re.findall` driver for the sound pattern. -/
def soundScanFuel : Nat → List Char → List (List Char)
  | 0, _ => []
  | _ + 1, [] => []
  | fuel + 1, c :: cs =>
    match matchSoundAt (c :: cs) with
    | some (cap, rest) => cap :: soundScanFuel fuel rest
    | none => soundScanFuel fuel cs

/-- Python `re.findall(r"\[sound:([^\]]+)\]", field, re.IGNORECASE)`. -/
def soundScan (s : List Char) : List (List Char) :=
  soundScanFuel s.length s

/-- Function `detect_media_in_fields` from `import_apkg.py`: collect the image
and audio references of every field and collapse duplicates
(`list(set(media_files))`; CPython's set order is unspecified, so the
result is compared as a set). -/
def detect_media_in_fields (fields : List String) : List String :=
  let media_files := fields.foldr
    (fun field acc =>
      (imgScan field.toList).map (fun l => (⟨l⟩ : String)) ++
        (soundScan field.toList).map (fun l => (⟨l⟩ : String)) ++ acc)
    []
  media_files.dedup

/-- One entry of a model's `flds` list (name and declared ordinal; the
remaining JSON attributes are carried verbatim by the source and play
no role in the claims). -/
structure FieldDefn where
  name : String
  ord : Int
deriving DecidableEq, Repr

/-- One entry of a model's `tmpls` list. -/
structure TemplateDef where
  name : String
  qfmt : String
  afmt : String
deriving DecidableEq, Repr

/-- Record `AnkiModel` from `models/anki_models.py`: a note type with its
field list, template list and CSS. -/
structure AnkiModel where
  id : Int
  name : String
  fields : List FieldDefn
  templates : List TemplateDef
  css : String
deriving DecidableEq, Repr

/-- A row of the `notes` table of a package database. -/
structure NoteRow where
  id : Int
  guid : String
  mid : Int
  flds : String
  tags : String
deriving DecidableEq, Repr

/-- A row of the `cards` table of a package database. -/
structure CardRowPkg where
  id : Int
  did : Int
  nid : Int
  ord : Int
deriving DecidableEq, Repr

/-- The logical content of a `.apkg` package: the embedded database's
`notes` and `cards` tables and the `col` row's JSON-decoded `models`
and `decks` columns. -/
structure Pkg where
  notes : List NoteRow
  cards : List CardRowPkg
  models : List (Int × AnkiModel)
  decks : List (Int × String)
deriving Repr

/-- Split on every 0x1F character, keeping empty pieces. -/
def splitFldsList : List Char → List (List Char)
  | [] => [[]]
  | c :: rest =>
    if c = '\x1f' then [] :: splitFldsList rest
    else
      match splitFldsList rest with
      | [] => [[c]]
      | w :: ws => (c :: w) :: ws

/-- Python `row["flds"].split("\x1f")` (the Anki field separator). -/
def splitFlds (s : String) : List String :=
  (splitFldsList s.toList).map (fun l => ⟨l⟩)

/-- Helper for Python's no-argument `str.split()`: accumulate the
current token (reversed) and break on runs of whitespace. -/
def pySplitWsAux (cur : List Char) : List Char → List String
  | [] => if cur.isEmpty then [] else [⟨cur.reverse⟩]
  | c :: rest =>
    if isPySpaceChar c then
      if cur.isEmpty then pySplitWsAux [] rest
      else (⟨cur.reverse⟩ : String) :: pySplitWsAux [] rest
    else pySplitWsAux (c :: cur) rest

/-- Python `str.split()` with no argument. -/
def pySplitWs (s : String) : List String :=
  pySplitWsAux [] s.toList

/-- Python `row["tags"].split() if row["tags"] else []`. -/
def splitTags (s : String) : List String :=
  if s = "" then [] else pySplitWs s

/-- Insertion step for `ORDER BY id` (ids are unique keys). -/
def insertByKey {α : Type} (key : α → Int) (x : α) : List α → List α
  | [] => [x]
  | y :: ys => if key x ≤ key y then x :: y :: ys else y :: insertByKey key x ys

/-- Sorting `ORDER BY id` over a table. -/
def sortByKey {α : Type} (key : α → Int) (l : List α) : List α :=
  l.foldr (insertByKey key) []

/-- Function `load_notes_from_apkg` from `import_apkg.py`: the package's note
rows, ordered by id, with fields split on 0x1F and tags split on
whitespace. -/
def load_notes_from_apkg (pkg : Pkg) : List AnkiNote :=
  (sortByKey (fun r => r.id) pkg.notes).map (fun r =>
    { id := r.id, guid := r.guid, mid := r.mid,
      fields := splitFlds r.flds, tags := splitTags r.tags })

/-- Record `AnkiCard` from `models/anki_models.py`. -/
structure AnkiCard where
  id : Int
  fields : List String
  tags : List String
  card_type : Int
  deck_name : String
  model : Option AnkiModel
  note_id : Option Int
deriving DecidableEq, Repr

/-- The card/note join of `load_cards_from_apkg` (`JOIN notes n ON
c.nid = n.id`, `ORDER BY c.id`). -/
def joinedCardRows (pkg : Pkg) : List (CardRowPkg × NoteRow) :=
  (sortByKey (fun c => c.id) pkg.cards).filterMap (fun c =>
    (pkg.notes.find? (fun n => n.id = c.nid)).map (fun n => (c, n)))

/-- The row loop of `load_cards_from_apkg`; `models[model_id]` raises
`KeyError` when the note's model id is absent, so the loop is modelled
in `Except`. -/
def buildCards (pkg : Pkg) : List (CardRowPkg × NoteRow) → Except String (List AnkiCard)
  | [] => .ok []
  | (c, n) :: rest =>
    match pkg.models.lookup n.mid with
    | none => .error ("KeyError: " ++ toString n.mid)
    | some m =>
      match buildCards pkg rest with
      | .error e => .error e
      | .ok cards =>
        .ok ({ id := c.id,
               fields := splitFlds n.flds,
               tags := splitTags n.tags,
               card_type := c.ord,
               deck_name := ((pkg.decks.lookup c.did).getD
                 ("Unknown Deck " ++ toString c.did)),
               model := some m,
               note_id := some c.nid } :: cards)

/-- Function `load_cards_from_apkg` from `import_apkg.py`: the joined card rows
plus the package's model dictionary. -/
def load_cards_from_apkg (pkg : Pkg) :
    Except String (List AnkiCard × List (Int × AnkiModel)) :=
  match buildCards pkg (joinedCardRows pkg) with
  | .error e => .error e
  | .ok cards => .ok (cards, pkg.models)

/-- Constant `BASIC_MODEL` from `export.py` (genanki assigns field ordinals by
position; the default genanki CSS is empty). -/
def BASIC_MODEL : AnkiModel :=
  { id := 1607392319
    name := "TidyAnki Basic Model"
    fields := [{ name := "Front", ord := 0 }, { name := "Back", ord := 1 }]
    templates := [{ name := "Card 1",
                    qfmt := "\x7b\x7bFront\x7d\x7d",
                    afmt := "\x7b\x7bFrontSide\x7d\x7d<hr id=\"answer\">\x7b\x7bBack\x7d\x7d" }]
    css := "" }

/-- Join strings with a single-character separator (`sep.join(l)`). -/
def joinSep (sep : Char) : List String → String
  | [] => ""
  | [x] => x
  | x :: y :: rest => x ++ ⟨[sep]⟩ ++ joinSep sep (y :: rest)

/-- A `genanki.Note` as constructed by `export_cards_to_deck`. -/
structure GNote where
  model : AnkiModel
  fields : List String
  tags : List String
deriving DecidableEq, Repr

/-- A `genanki.Deck` under construction. -/
structure GDeck where
  deck_id : Nat
  name : String
  notes : List GNote
deriving DecidableEq, Repr

/-- The field-count repair of `export_cards_to_deck`: pad with empty
strings up to the model's field count, then truncate to it. -/
def padTruncFields (model_field_count : Nat) (fields : List String) : List String :=
  (fields ++ List.replicate (model_field_count - fields.length) "").take
    model_field_count

/-- Function `export_cards_to_deck` from `export.py`, up to the package write:
every card becomes one genanki note carrying the single `model`
argument (the fixed `BASIC_MODEL` when none is given) — never the
card's own model — with its field list padded/truncated to that
model's field count.  `h` is the process's string-hash oracle used for
the deck id. -/
def export_cards_to_deck (cards : List AnkiCard) (deck_name : String)
    (h : String → Int) (model : Option AnkiModel := none) : GDeck :=
  let m := model.getD BASIC_MODEL
  { deck_id := deck_id_of_name h deck_name
    name := deck_name
    notes := cards.map (fun card =>
      { model := m
        fields := padTruncFields m.fields.length card.fields
        tags := card.tags }) }

/-- First-occurrence deduplication of the models attached to the
exported notes, keyed by model id. -/
def dedupModelsAux (seen : List Int) : List AnkiModel → List AnkiModel
  | [] => []
  | m :: rest =>
    if m.id ∈ seen then dedupModelsAux seen rest
    else m :: dedupModelsAux (m.id :: seen) rest

/-- Modelled from the spec: the package serialization performed by the
external `genanki` library (`Package(deck).write_to_file`), absent
from this repository.  Per §4.6 and §6 of the spec, the written
archive contains the note types of the deck's notes keyed by model id,
one note row per native note with its fields joined by 0x1F and its
tags space-joined (with surrounding spaces), one card per note and
template ordinal of the note's model, and the deck's freshly assigned
id/name pair. -/
def writePackage (deck : GDeck) : Pkg :=
  let indexed := deck.notes.enum
  { notes := indexed.map (fun p =>
      { id := (p.1 : Int) + 1
        guid := ""
        mid := p.2.model.id
        flds := joinSep '\x1f' p.2.fields
        tags := " " ++ joinSep ' ' p.2.tags ++ " " })
    cards := (indexed.map (fun p =>
      (p.2.model.templates.enum.map (fun t =>
        ({ id := (p.1 : Int) * 1000 + (t.1 : Int) + 1
           did := (deck.deck_id : Int)
           nid := (p.1 : Int) + 1
           ord := (t.1 : Int) } : CardRowPkg))))).flatten
    models := dedupModelsAux [] (deck.notes.map (fun n => n.model))
      |>.map (fun m => (m.id, m))
    decks := [((deck.deck_id : Int), deck.name)] }

/-- A two-deck database: note 1 sits in deck `D`, note 2 in deck `E`,
both with first field `"x"`. -/
def dbTwoDecks : AnkiDb :=
  { notes := [{ id := 1, guid := "", mid := 0, fields := ["x"], tags := [] },
              { id := 2, guid := "", mid := 0, fields := ["x"], tags := [] }]
    cards := [{ id := 1, did := 1, nid := 1, ord := 0 },
              { id := 2, did := 2, nid := 2, ord := 0 }]
    decks := [{ id := 1, name := "D" }, { id := 2, name := "E" }] }

/-- A database putting one note with an empty field list and one note
with field `"x"` into deck `D`, and a reference note with field `"x"`
into deck `E`. -/
def dbShortFields : AnkiDb :=
  { notes := [{ id := 1, guid := "", mid := 0, fields := [], tags := [] },
              { id := 2, guid := "", mid := 0, fields := ["x"], tags := [] }]
    cards := [{ id := 1, did := 1, nid := 1, ord := 0 },
              { id := 2, did := 2, nid := 2, ord := 0 }]
    decks := [{ id := 1, name := "D" }, { id := 2, name := "E" }] }

/-- A database where deck `D1` holds two notes (ids 1, 2) whose first
field is `"x"` and deck `D2` holds a single note (id 3) with first
field `"x"`. -/
def dbAsym : AnkiDb :=
  { notes := [{ id := 1, guid := "", mid := 0, fields := ["x"], tags := [] },
              { id := 2, guid := "", mid := 0, fields := ["x"], tags := [] },
              { id := 3, guid := "", mid := 0, fields := ["x"], tags := [] }]
    cards := [{ id := 1, did := 1, nid := 1, ord := 0 },
              { id := 2, did := 1, nid := 2, ord := 0 },
              { id := 3, did := 2, nid := 3, ord := 0 }]
    decks := [{ id := 1, name := "D1" }, { id := 2, name := "D2" }] }

/-- First field of the i-th note of deck `D1` in `dbTen`: the first
three are shared with `D2`. -/
def d1Field (i : Nat) : String :=
  if i < 3 then "s" ++ toString i else "a" ++ toString i

/-- First field of the i-th note of deck `D2` in `dbTen`. -/
def d2Field (i : Nat) : String :=
  if i < 3 then "s" ++ toString i else "b" ++ toString i

/-- A database with two ten-note decks sharing exactly three matching
notes at field index 0. -/
def dbTen : AnkiDb :=
  { notes :=
      (List.range 10).map (fun i =>
        { id := (i : Int) + 1, guid := "", mid := 0,
          fields := [d1Field i], tags := [] }) ++
      (List.range 10).map (fun i =>
        { id := (i : Int) + 11, guid := "", mid := 0,
          fields := [d2Field i], tags := [] })
    cards :=
      (List.range 10).map (fun i =>
        { id := (i : Int) + 1, did := 1, nid := (i : Int) + 1, ord := 0 }) ++
      (List.range 10).map (fun i =>
        { id := (i : Int) + 11, did := 2, nid := (i : Int) + 11, ord := 0 })
    decks := [{ id := 1, name := "D1" }, { id := 2, name := "D2" }] }

/-- A note type quite unlike the export fallback model. -/
def modelVocab : AnkiModel :=
  { id := 100
    name := "Vocab Model"
    fields := [{ name := "Word", ord := 0 }, { name := "Definition", ord := 1 }]
    templates := [{ name := "Card A", qfmt := "\x7b\x7bWord\x7d\x7d",
                    afmt := "answer" }]
    css := "vocab-css" }

/-- A one-note, one-card archive using `modelVocab`. -/
def pkgA : Pkg :=
  { notes := [{ id := 7, guid := "g7", mid := 100, flds := "w\x1fd", tags := "" }]
    cards := [{ id := 1, did := 5, nid := 7, ord := 0 }]
    models := [(100, modelVocab)]
    decks := [(5, "DeckA")] }

/-- Reading `pkgA`, exporting its cards with `export_cards_to_deck`
(default model argument, as the round-trip claim's pipeline does) and
serializing the resulting deck.  The hash oracle affects only the deck
id, not the note or model content. -/
def reexportedPkgA : Pkg :=
  match load_cards_from_apkg pkgA with
  | .ok (cards1, _) =>
      writePackage (export_cards_to_deck cards1 "Exported" (fun _ => 0) none)
  | .error _ => { notes := [], cards := [], models := [], decks := [] }

/-- The model dictionary obtained by re-reading the re-exported
package. -/
def rereadModelsA : List (Int × AnkiModel) :=
  match load_cards_from_apkg reexportedPkgA with
  | .ok (_, models2) => models2
  | .error _ => []

/-! ## Theorems -/

/-- Sanity anchor mirroring `test_normalize_and_split` of the repo:
HTML stripping composed with delimiter splitting. -/
theorem normalize_html_example :
    normalize_and_split "<b>bold</b>, text with <i>italics</i>" =
      ({"bold", "text with italics"} : Finset String) := by
  decide

/-- Sanity anchor mirroring `test_normalize_and_split` of the repo:
stop-list words are dropped. -/
theorem normalize_ignored_example :
    normalize_and_split "item, sentence, plain, valid" =
      ({"valid"} : Finset String) := by
  decide

/-- Sanity anchor mirroring `test_normalize_and_split` of the repo: a
delimiter-free string over the bound collapses to the empty set. -/
theorem normalize_maxlen_example :
    normalize_and_split "short verylongwordthatexceedslimit normal" 10 =
      (∅ : Finset String) := by
  decide

/-- C2: the claim asserts the deck id assigned from the deck name is a
pure, stable function of the name alone, identical across runs.  The
source computes `abs(hash(deck_name)) % (10**10)` with Python's
per-process salted string hash, so the id also depends on the process
hash oracle: two runs whose oracles value `"Test Deck"` differently
assign different ids to the same deck name, refuting the asserted
cross-run stability. -/
theorem C2_deck_id_not_hash_independent :
    deck_id_of_name (fun _ => 1) "Test Deck" = 1 ∧
    deck_id_of_name (fun _ => 2) "Test Deck" = 2 ∧
    deck_id_of_name (fun _ => 1) "Test Deck" ≠
      deck_id_of_name (fun _ => 2) "Test Deck" := by
  exact ⟨by decide, by decide, by decide⟩

/-- C9: `detect_media_in_fields` scans all fields case-insensitively
for `img src` markup and `[sound:...]` markup and returns the
referenced filenames with duplicates collapsed; on the spec's example
it yields exactly the two filenames, it is case-insensitive, and the
result is always duplicate-free. -/
theorem C9_detect_media :
    (detect_media_in_fields
        ["<img src=\"x.jpg\">", "[sound:y.mp3]"]).toFinset =
      ({"x.jpg", "y.mp3"} : Finset String) ∧
    (detect_media_in_fields
        ["<IMG SRC=\x27x.jpg\x27>", "[SOUND:y.mp3]",
         "<img src=\"x.jpg\">"]).toFinset =
      ({"x.jpg", "y.mp3"} : Finset String) ∧
    ∀ fields : List String, (detect_media_in_fields fields).Nodup := by
  refine ⟨by decide, by decide, ?_⟩
  intro fields
  simp only [detect_media_in_fields]
  exact List.nodup_dedup _

/-- The three textually identical tag branches of the source scanner
collapse to the uniform one-rule scan of the spec. -/
theorem scanPartsFuel_eq_spec (fuel : Nat) (s : List Nat) :
    scanPartsFuel fuel s = scanPartsSpecFuel fuel s := by
  induction fuel generalizing s with
  | zero => rfl
  | succ n ih =>
    cases s with
    | nil => rfl
    | cons c rest =>
      by_cases h10 : c = 0x0A
      · cases rest with
        | nil => simp [scanPartsFuel, scanPartsSpecFuel, h10]
        | cons len rest2 =>
          simp only [scanPartsFuel, scanPartsSpecFuel, h10, if_true, if_pos,
            true_or]
          split <;> simp [ih]
      · by_cases h12 : c = 0x12
        · cases rest with
          | nil => simp [scanPartsFuel, scanPartsSpecFuel, h10, h12]
          | cons len rest2 =>
            simp only [scanPartsFuel, scanPartsSpecFuel, h10, h12, if_true,
              if_false, or_true, true_or, or_false, if_pos, if_neg,
              not_false_iff]
            split <;> simp [ih]
        · by_cases h1A : c = 0x1A
          · cases rest with
            | nil => simp [scanPartsFuel, scanPartsSpecFuel, h10, h12, h1A]
            | cons len rest2 =>
              simp only [scanPartsFuel, scanPartsSpecFuel, h10, h12, h1A,
                if_true, if_false, or_true, true_or, or_false, if_pos, if_neg,
                not_false_iff]
              split <;> simp [ih]
          · simp [scanPartsFuel, scanPartsSpecFuel, h10, h12, h1A, ih]

/-- C7 (amended): `_decode_template_config` always returns exactly
three sections in (front, back, browser-question) order, computed by
first decoding the whole blob as lossy UTF-8 and then scanning the
decoded *characters*: a tag character 0x0A/0x12/0x1A makes the next
character's code point a length and consumes that many characters as
one trimmed section, any non-tag character is skipped, and missing
sections are padded with empty strings. -/
theorem C7_template_decoder_char_scan (blob : List Nat) :
    decode_template_config blob =
      (let parts :=
        scanPartsSpecFuel (utf8DecodeIgnore blob).length (utf8DecodeIgnore blob)
       (parts.getD 0 [], parts.getD 1 [], parts.getD 2 [])) := by
  simp only [decode_template_config, scanParts, scanPartsFuel_eq_spec]

/-- C7 counterexample: on the blob `0A 02 C3 A9 12 01 78` the source
decoder (which scans decoded characters) returns a first section of
two characters `é\x12` and nothing else, while the claim's byte-level
scan would return sections `é` and `x`: the claim's description of the
algorithm does not match the code on this input. -/
theorem C7_counterexample :
    decode_template_config [0x0A, 0x02, 0xC3, 0xA9, 0x12, 0x01, 0x78] =
        ([0xE9, 0x12], [], []) ∧
    spec_decode_template_config [0x0A, 0x02, 0xC3, 0xA9, 0x12, 0x01, 0x78] =
        ([0xE9], [0x78], []) ∧
    decode_template_config [0x0A, 0x02, 0xC3, 0xA9, 0x12, 0x01, 0x78] ≠
      spec_decode_template_config [0x0A, 0x02, 0xC3, 0xA9, 0x12, 0x01, 0x78] := by
  refine ⟨by decide, by decide, by decide⟩

/-- C3: under `deduplicate_external_deck`, a candidate note is a
duplicate exactly when the normalized token set of at least one of its
fields meets the word set of the reference collection; the returned
unique list is exactly the candidates that are not duplicates, and the
unique and duplicate sets are disjoint with union the candidate set. -/
theorem C3_word_overlap_complementarity
    (external_notes existing : List AnkiNote) :
    (∀ n : AnkiNote,
      notes_match_auto n (build_collection_word_set existing) = true ↔
        ∃ f ∈ n.fields,
          (normalize_and_split f ∩ build_collection_word_set existing).Nonempty) ∧
    deduplicate_external_deck external_notes existing =
      external_notes.filter
        (fun n => ¬ notes_match_auto n (build_collection_word_set existing)) ∧
    (∀ n : AnkiNote,
      ¬ (n ∈ deduplicate_external_deck external_notes existing ∧
         n ∈ external_notes.filter
           (fun n => notes_match_auto n (build_collection_word_set existing)))) ∧
    (∀ n : AnkiNote,
      n ∈ external_notes ↔
        n ∈ deduplicate_external_deck external_notes existing ∨
        n ∈ external_notes.filter
          (fun n => notes_match_auto n (build_collection_word_set existing))) := by
  refine ⟨?_, rfl, ?_, ?_⟩
  · intro n
    simp [notes_match_auto, List.any_eq_true]
  · intro n hn
    rcases hn with ⟨h1, h2⟩
    simp only [deduplicate_external_deck] at h1
    rw [List.mem_filter] at h1 h2
    rcases h1 with ⟨-, h1⟩
    rcases h2 with ⟨-, h2⟩
    simp_all
  · intro n
    constructor
    · intro hn
      by_cases hdup : notes_match_auto n (build_collection_word_set existing) = true
      · right
        exact List.mem_filter.mpr ⟨hn, by simpa using hdup⟩
      · left
        simp only [deduplicate_external_deck]
        exact List.mem_filter.mpr ⟨hn, by simpa using hdup⟩
    · intro hn
      rcases hn with h | h
      · simp only [deduplicate_external_deck] at h
        exact (List.mem_filter.mp h).1
      · exact (List.mem_filter.mp h).1

/-- C5: `remove_duplicate_notes` filters its reference notes before
any field comparison, and — in a database whose cards all reference
existing notes — every reference note that belongs to the deck being
deduplicated is removed by that filter, so a candidate can be flagged
as a duplicate only because of a reference note outside that deck. -/
theorem C5_same_deck_references_excluded (db : AnkiDb)
    (new_deck_name : String) (existing_collection : Option (List AnkiNote))
    (comparison_field_index : Nat)
    (custom_comparison : Option (String → String → Bool))
    (hwf : ∀ c ∈ db.cards, ∃ n ∈ db.notes, n.id = c.nid) :
    remove_duplicate_notes db new_deck_name existing_collection
        comparison_field_index custom_comparison =
      (load_notes db (some new_deck_name)).filter (fun new_note =>
        ! (usedReferenceNotes db new_deck_name existing_collection).any
          (duplicatePairTest comparison_field_index
            (custom_comparison.getD default_comparison) new_note)) ∧
    ∀ r ∈ usedReferenceNotes db new_deck_name existing_collection,
      noteInDeck db (deckSearchName new_deck_name) r.id = false := by
  refine ⟨rfl, ?_⟩
  intro r hr
  simp only [usedReferenceNotes, List.mem_filter, decide_eq_true_eq] at hr
  rcases hr with ⟨-, hnotin⟩
  by_contra hin
  rw [Bool.not_eq_false] at hin
  simp only [noteInDeck, List.any_eq_true, decide_eq_true_eq] at hin
  rcases hin with ⟨c, hc, hcnid, hdeck⟩
  rcases hwf c hc with ⟨n, hn, hnid⟩
  have hnin : n ∈ load_notes db (some new_deck_name) := by
    simp only [load_notes]
    by_cases hdn : new_deck_name = ""
    · rw [if_pos hdn]
      exact hn
    · rw [if_neg hdn, List.mem_filter]
      refine ⟨hn, ?_⟩
      simp only [noteInDeck, List.any_eq_true, decide_eq_true_eq]
      exact ⟨c, hc, by rw [hnid, hcnid], hdeck⟩
  apply hnotin
  rw [List.elem_iff]
  simp only [List.mem_map]
  exact ⟨n, hnin, by rw [hnid, hcnid]⟩

/-- Witness for C5 at `dbTwoDecks`: the reference note with id 2 that
survives the filter does not belong to deck `D`. -/
theorem C5_same_deck_references_excluded_witness :
    noteInDeck dbTwoDecks (deckSearchName "D") (2 : Int) = false :=
  (C5_same_deck_references_excluded dbTwoDecks "D" none 0 none
      (by decide)).2
    { id := 2, guid := "", mid := 0, fields := ["x"], tags := [] }
    (by decide)

/-- C10 (implicit): the reference collection is pre-filtered by note
id, so no surviving reference note shares an id with any candidate
note of the deck being deduplicated, whatever decks the notes belong
to. -/
theorem C10_reference_prefilter_by_id (db : AnkiDb)
    (new_deck_name : String) (existing_collection : Option (List AnkiNote))
    (comparison_field_index : Nat)
    (custom_comparison : Option (String → String → Bool)) :
    remove_duplicate_notes db new_deck_name existing_collection
        comparison_field_index custom_comparison =
      (load_notes db (some new_deck_name)).filter (fun new_note =>
        ! (usedReferenceNotes db new_deck_name existing_collection).any
          (duplicatePairTest comparison_field_index
            (custom_comparison.getD default_comparison) new_note)) ∧
    ∀ r ∈ usedReferenceNotes db new_deck_name existing_collection,
      ∀ c ∈ load_notes db (some new_deck_name), r.id ≠ c.id := by
  refine ⟨rfl, ?_⟩
  intro r hr c hc
  simp only [usedReferenceNotes, List.mem_filter, decide_eq_true_eq] at hr
  rcases hr with ⟨-, hnotin⟩
  intro heq
  apply hnotin
  rw [List.elem_iff]
  simp only [List.mem_map]
  exact ⟨c, hc, heq.symm⟩

/-- Witness for C10 at `dbTwoDecks`: the surviving reference note
(id 2) does not share its id with the candidate note (id 1). -/
theorem C10_reference_prefilter_by_id_witness :
    ({ id := 2, guid := "", mid := 0, fields := ["x"], tags := [] } :
        AnkiNote).id ≠
      ({ id := 1, guid := "", mid := 0, fields := ["x"], tags := [] } :
        AnkiNote).id :=
  (C10_reference_prefilter_by_id dbTwoDecks "D" none 0 none).2
    { id := 2, guid := "", mid := 0, fields := ["x"], tags := [] } (by decide)
    { id := 1, guid := "", mid := 0, fields := ["x"], tags := [] } (by decide)

/-- C8: `remove_duplicate_notes` treats a candidate whose field list is
too short for the comparison index as non-comparable — it never
matches and lands in the unique result — and with an empty reference
collection every candidate is returned unique.  (The model is a total
function, so no exception is possible.) -/
theorem C8_short_fields_and_empty_reference (db : AnkiDb)
    (new_deck_name : String) (existing_collection : Option (List AnkiNote))
    (comparison_field_index : Nat)
    (custom_comparison : Option (String → String → Bool)) :
    (∀ n ∈ load_notes db (some new_deck_name),
      n.fields.length ≤ comparison_field_index →
        n ∈ remove_duplicate_notes db new_deck_name existing_collection
          comparison_field_index custom_comparison) ∧
    (existing_collection = some [] →
      remove_duplicate_notes db new_deck_name existing_collection
          comparison_field_index custom_comparison =
        load_notes db (some new_deck_name)) := by
  constructor
  · intro n hn hshort
    simp only [remove_duplicate_notes, List.mem_filter]
    refine ⟨hn, ?_⟩
    rw [Bool.not_eq_true', List.any_eq_false]
    intro r hr
    simp only [duplicatePairTest, decide_eq_true_eq]
    intro hcontra
    exact absurd hcontra.1 (by omega)
  · intro hempty
    subst hempty
    simp [remove_duplicate_notes, usedReferenceNotes]

/-- Witness for C8 at `dbShortFields`: the field-less note of deck `D`
is returned unique despite the matching reference note, and with an
empty reference collection the whole deck comes back. -/
theorem C8_short_fields_and_empty_reference_witness :
    ({ id := 1, guid := "", mid := 0, fields := [], tags := [] } : AnkiNote) ∈
        remove_duplicate_notes dbShortFields "D" none 0 none ∧
      remove_duplicate_notes dbShortFields "D" (some []) 0 none =
        load_notes dbShortFields (some "D") :=
  ⟨(C8_short_fields_and_empty_reference dbShortFields "D" none 0 none).1
      { id := 1, guid := "", mid := 0, fields := [], tags := [] }
      (by decide) (by decide),
   (C8_short_fields_and_empty_reference dbShortFields "D" (some []) 0 none).2
      rfl⟩

/-- C6: on the symmetric 10-note/10-note example with exactly three
shared notes, `analyze_deck_overlap` reports overlap 3, unique counts
7 and 7, and a deck-1 overlap percentage of 30; but its deck-2 unique
count subtracts the deck-1-side overlap count (the deck-2-side list,
`deck2_in_deck1`, is computed and discarded by the source), so on
`dbAsym` — where deck 2 shares its single note with deck 1 — it
reports a deck-2 unique count of `1 - 2 = -1` instead of `0`. -/
theorem C6_overlap_analysis_deck2_unique_wrong :
    (analyze_deck_overlap dbAsym "D1" "D2" 0).overlap_notes = 2 ∧
    (analyze_deck_overlap dbAsym "D1" "D2" 0).deck2_total_notes = 1 ∧
    (deck2_in_deck1 dbAsym "D1" "D2" 0).length = 1 ∧
    (analyze_deck_overlap dbAsym "D1" "D2" 0).deck2_unique_notes = -1 ∧
    (analyze_deck_overlap dbTen "D1" "D2" 0).deck1_total_notes = 10 ∧
    (analyze_deck_overlap dbTen "D1" "D2" 0).deck2_total_notes = 10 ∧
    (analyze_deck_overlap dbTen "D1" "D2" 0).overlap_notes = 3 ∧
    (analyze_deck_overlap dbTen "D1" "D2" 0).deck1_unique_notes = 7 ∧
    (analyze_deck_overlap dbTen "D1" "D2" 0).deck2_unique_notes = 7 ∧
    (analyze_deck_overlap dbTen "D1" "D2" 0).overlap_percentage_deck1 = 30 := by
  have hov : (deck1_in_deck2 dbTen "D1" "D2" 0).length = 3 := by decide
  have ht1 : (load_notes dbTen (some "D1")).length = 10 := by decide
  refine ⟨by decide, by decide, by decide, by decide, by decide, by decide,
    by decide, by decide, by decide, ?_⟩
  simp only [analyze_deck_overlap, hov, ht1]
  norm_num

/-- Rebuilding a string from its character list is the identity. -/
theorem mk_toList (s : String) : (⟨s.toList⟩ : String) = s := by
  cases s
  rfl

/-- Stripping is idempotent. -/
theorem stripList_idem (l : List Char) :
    stripList (stripList l) = stripList l := by
  unfold stripList
  have h1 : List.dropWhile isPySpaceChar
      ((l.dropWhile isPySpaceChar).rdropWhile isPySpaceChar) =
      (l.dropWhile isPySpaceChar).rdropWhile isPySpaceChar := by
    rw [List.dropWhile_eq_self_iff]
    intro hl
    have hpre := List.rdropWhile_prefix isPySpaceChar (l.dropWhile isPySpaceChar)
    have hlen : 0 < (l.dropWhile isPySpaceChar).length :=
      lt_of_lt_of_le hl hpre.length_le
    have hnot := List.dropWhile_get_zero_not (p := isPySpaceChar) l hlen
    simp only [List.get_eq_getElem] at hnot ⊢
    rw [hpre.getElem hl]
    exact hnot
  rw [h1, List.rdropWhile_idempotent]

/-- Function `pyStrip` is idempotent. -/
theorem pyStrip_idem (s : String) : pyStrip (pyStrip s) = pyStrip s := by
  simp only [pyStrip]
  have h : (⟨stripList s.toList⟩ : String).toList = stripList s.toList := rfl
  rw [h, stripList_idem]

/-- Characters of the stripped list come from the original list. -/
theorem mem_stripList {c : Char} {l : List Char} (h : c ∈ stripList l) :
    c ∈ l := by
  unfold stripList at h
  exact (List.dropWhile_suffix isPySpaceChar).subset
    ((List.rdropWhile_prefix isPySpaceChar _).subset h)

/-- ASCII lowercasing never produces a split delimiter from a
non-delimiter. -/
theorem isDelim_pyLowerChar_false {c : Char} (h : isDelim c = false) :
    isDelim (pyLowerChar c) = false := by
  by_cases hc : 65 ≤ c.toNat ∧ c.toNat ≤ 90
  · simp only [pyLowerChar, if_pos hc]
    have hv : (c.toNat + 32).isValidChar := Or.inl (by omega)
    have htn : (Char.ofNat (c.toNat + 32)).toNat = c.toNat + 32 := by
      simp [Char.ofNat, hv]
      rfl
    simp only [isDelim, decide_eq_false_iff_not]
    intro hcon
    rcases hcon with h1 | h1 | h1 <;>
      { have := congrArg Char.toNat h1
        rw [htn] at this
        simp at this
        omega }
  · simp only [pyLowerChar, if_neg hc]
    exact h

/-- The HTML-tag stripper only ever emits characters of its input (or
the literal `<`/`>` of an unmatched candidate tag), so it introduces no
split delimiter. -/
theorem stripHtmlAux_no_delim (l : List Char) :
    ∀ st : Option (List Char),
      (∀ c ∈ l, isDelim c = false) →
      (∀ buf, st = some buf → ∀ c ∈ buf, isDelim c = false) →
      ∀ c ∈ stripHtmlAux st l, isDelim c = false := by
  induction l with
  | nil =>
    intro st hl hst c hc
    cases st with
    | none => simp [stripHtmlAux] at hc
    | some buf =>
      simp only [stripHtmlAux, List.mem_cons, List.mem_reverse] at hc
      rcases hc with rfl | hc
      · decide
      · exact hst buf rfl c hc
  | cons c0 rest ih =>
    intro st hl hst c hc
    have hc0 : isDelim c0 = false := hl c0 (by simp)
    have hrest : ∀ x ∈ rest, isDelim x = false :=
      fun x hx => hl x (by simp [hx])
    cases st with
    | none =>
      by_cases h : c0 = '<'
      · rw [h] at hc
        simp only [stripHtmlAux, if_pos rfl] at hc
        exact ih (some []) hrest
          (by intro buf hbuf x hx; cases hbuf; simp at hx) c hc
      · simp only [stripHtmlAux, if_neg h, List.mem_cons] at hc
        rcases hc with rfl | hc
        · exact hc0
        · exact ih none hrest (fun buf hbuf => nomatch hbuf) c hc
    | some buf =>
      have hbufd : ∀ x ∈ buf, isDelim x = false := hst buf rfl
      by_cases h : c0 = '>'
      · rw [h] at hc
        by_cases hb : buf.isEmpty
        · simp only [stripHtmlAux, if_pos rfl, hb, if_true, List.mem_cons] at hc
          rcases hc with rfl | rfl | hc
          · decide
          · decide
          · exact ih none hrest (fun buf2 hbuf2 => nomatch hbuf2) c hc
        · simp only [stripHtmlAux, if_pos rfl, hb, if_false, Bool.false_eq_true] at hc
          exact ih none hrest (fun buf2 hbuf2 => nomatch hbuf2) c hc
      · simp only [stripHtmlAux, if_neg h] at hc
        refine ih (some (c0 :: buf)) hrest ?_ c hc
        intro buf2 hbuf2 x hx
        cases hbuf2
        rcases List.mem_cons.mp hx with rfl | hx
        · exact hc0
        · exact hbufd x hx

/-- A delimiter-free character list splits into itself alone. -/
theorem splitDelimsList_no_delim (l : List Char)
    (h : ∀ c ∈ l, isDelim c = false) : splitDelimsList l = [l] := by
  induction l with
  | nil => rfl
  | cons c rest ih =>
    have hc : isDelim c = false := h c (by simp)
    have hr := ih (fun x hx => h x (by simp [hx]))
    simp [splitDelimsList, hc, hr]

/-- A delimiter-free string splits into itself alone. -/
theorem splitDelims_no_delim (s : String)
    (h : ∀ c ∈ s.toList, isDelim c = false) : splitDelims s = [s] := by
  simp only [splitDelims, splitDelimsList_no_delim s.toList h, List.map]
  rw [mk_toList]

/-- C4 counterexample: `"hello"` followed by 21 spaces is a
delimiter-free string of length 26 > 20, yet `normalize_and_split`
maps it to `{"hello"}`, not to the empty set as the claim states for
every delimiter-free over-long string. -/
theorem C4_counterexample :
    ("hello                     " : String).toList.all
        (fun c => ! isDelim c) = true ∧
    20 < ("hello                     " : String).length ∧
    normalize_and_split "hello                     " =
      ({"hello"} : Finset String) ∧
    normalize_and_split "hello                     " ≠ (∅ : Finset String) := by
  exact ⟨by decide, by decide, by decide, by decide⟩

/-- C4 (amended): `normalize_and_split` strips HTML tags, lowercases,
splits on `,` `;` `|`, trims tokens, and discards stop-list tokens and
tokens longer than the bound; the spec's example normalizes to the
four fruit words, stop-list tokens never appear in any result, and a
delimiter-free string whose content is still longer than the bound
after HTML-stripping, lowercasing and trimming normalizes to the empty
set. -/
theorem C4_normalize_and_split :
    normalize_and_split "apple, banana; cherry|grape" =
      ({"apple", "banana", "cherry", "grape"} : Finset String) ∧
    (∀ (s : String) (m : Nat),
      "item" ∉ normalize_and_split s m ∧
      "sentence" ∉ normalize_and_split s m ∧
      "plain" ∉ normalize_and_split s m) ∧
    (∀ s : String, (∀ c ∈ s.toList, isDelim c = false) →
      20 < (pyStrip (pyLower (stripHtml s))).length →
      normalize_and_split s = ∅) := by
  refine ⟨by decide, ?_, ?_⟩
  · intro s m
    refine ⟨?_, ?_, ?_⟩ <;>
      { intro hmem
        simp only [normalize_and_split, List.mem_toFinset, List.mem_filter,
          decide_eq_true_eq] at hmem
        exact hmem.1.2 (by decide) }
  · intro s hnd hlen
    have h1 : ∀ c ∈ (stripHtml s).toList, isDelim c = false := by
      intro c hc
      exact stripHtmlAux_no_delim s.toList none hnd
        (fun buf hbuf => nomatch hbuf) c hc
    have h2 : ∀ c ∈ (pyLower (stripHtml s)).toList, isDelim c = false := by
      intro c hc
      simp only [pyLower] at hc
      have hc' : c ∈ (stripHtml s).toList.map pyLowerChar := hc
      rcases List.mem_map.mp hc' with ⟨d, hd, rfl⟩
      exact isDelim_pyLowerChar_false (h1 d hd)
    have h3 : ∀ c ∈ (pyStrip (pyLower (stripHtml s))).toList, isDelim c = false := by
      intro c hc
      simp only [pyStrip] at hc
      exact h2 c (mem_stripList hc)
    have hsplit : splitDelims (pyStrip (pyLower (stripHtml s))) =
        [pyStrip (pyLower (stripHtml s))] :=
      splitDelims_no_delim _ h3
    have hne : pyStrip (pyLower (stripHtml s)) ≠ "" := by
      intro h0
      rw [h0] at hlen
      exact absurd hlen (by decide)
    have hnig : pyStrip (pyLower (stripHtml s)) ∉ IGNORED_WORDS := by
      intro hmem
      simp only [IGNORED_WORDS, List.mem_cons, List.not_mem_nil, or_false]
        at hmem
      rcases hmem with h0 | h0 | h0 <;>
        { rw [h0] at hlen
          exact absurd hlen (by decide) }
    simp only [normalize_and_split, hsplit, List.map_cons, List.map_nil,
      pyStrip_idem]
    rw [List.filter_cons_of_pos (by simpa using hne), List.filter_nil]
    rw [List.filter_cons_of_pos (by simpa using hnig), List.filter_nil]
    rw [List.filter_cons_of_neg (by simpa using Nat.not_le_of_lt hlen),
      List.filter_nil]
    rfl

/-- Witness for the delimiter-free clause of C4 at a concrete input:
twenty-five `a`s normalize to the empty set. -/
theorem C4_normalize_and_split_witness :
    normalize_and_split "aaaaaaaaaaaaaaaaaaaaaaaaa" = (∅ : Finset String) :=
  C4_normalize_and_split.2.2 "aaaaaaaaaaaaaaaaaaaaaaaaa" (by decide) (by decide)

/-- C1: the round-trip claim fails.  On the archive `pkgA` the note
and model counts survive the `load_cards_from_apkg` →
`export_cards_to_deck` → reread pipeline, but the surviving model is
the fixed basic export model: its name, field names and CSS all differ
from the original model's, because `export_cards_to_deck` attaches the
single (defaulted) `model` argument to every note and discards each
card's own note type. -/
theorem C1_roundtrip_not_model_preserving :
    rereadModelsA.length = pkgA.models.length ∧
    (load_notes_from_apkg reexportedPkgA).length =
      (load_notes_from_apkg pkgA).length ∧
    rereadModelsA.map
        (fun p => (p.2.name, p.2.fields.map (fun f => f.name), p.2.css)) =
      [("TidyAnki Basic Model", ["Front", "Back"], "")] ∧
    pkgA.models.map
        (fun p => (p.2.name, p.2.fields.map (fun f => f.name), p.2.css)) =
      [("Vocab Model", ["Word", "Definition"], "vocab-css")] ∧
    rereadModelsA.map
        (fun p => (p.2.name, p.2.fields.map (fun f => f.name), p.2.css)) ≠
      pkgA.models.map
        (fun p => (p.2.name, p.2.fields.map (fun f => f.name), p.2.css)) := by
  exact ⟨by decide, by decide, by decide, by decide, by decide⟩

end Tidyanki
